import Mathlib

/-!
Verification development for the script-craft-v2 repository.

This file gives a shallow embedding, in Lean 4, of the pure computational
core of the repository's TypeScript sources:

* `src/services/geminiService.ts` — response extraction and validation
  (`parseAndValidateResponse`), next-speaker rotation (`generateNextLine`),
  request-configuration building (`generateScript`), and the topic-extraction
  prompt (`extractTopicsFromContext`, `processDocument`);
* `src/components/PersonaBuilder.tsx` — persona import
  (`handleImportPersonas`) and the sequential document upload batch
  (`handleFileChange`).

JavaScript dynamic values produced by `JSON.parse` are modelled by the
inductive type `Json`; JavaScript coercions (`String(x)`, truthiness,
property access — which throws on `null`) are modelled explicitly.  Strings
are modelled as `List Char`.  `Date.now()` is passed in as an explicit
`now : Nat` parameter.  JSON numbers are stored as their source lexeme; the
string coercion of a number is modelled as that lexeme, which agrees with
JavaScript for canonically written integers (the only numeric shapes the
claims touch).
-/

/-- The backtick character (written by code so that the source file itself
contains no stray backtick). -/
def tickChar : Char := Char.ofNat 96

/-- The characters matched by JavaScript `\s` (and trimmed by
`String.prototype.trim`): ASCII whitespace plus the Unicode space
separators, BOM, and line separators. -/
def isJsWs (c : Char) : Bool :=
  c = ' ' || c = '\t' || c = '\n' || c = '\r' || c = '\x0b' || c = '\x0c' ||
  c.toNat = 0xa0 || c.toNat = 0x1680 ||
  (0x2000 <= c.toNat && c.toNat <= 0x200a) ||
  c.toNat = 0x2028 || c.toNat = 0x2029 || c.toNat = 0x202f ||
  c.toNat = 0x205f || c.toNat = 0x3000 || c.toNat = 0xfeff

/-- `String.prototype.trim`, on character lists. -/
def jsTrim (l : List Char) : List Char :=
  ((l.dropWhile isJsWs).reverse.dropWhile isJsWs).reverse

/-- Drop a literal prefix, or fail. -/
def chompPre (pre l : List Char) : Option (List Char) :=
  if pre.isPrefixOf l then some (l.drop pre.length) else none

/-- JavaScript values that can result from `JSON.parse`.  A number is kept
as its source lexeme (see the header comment). -/
inductive Json where
  | null : Json
  | bool (b : Bool) : Json
  | num (lexeme : String) : Json
  | str (s : String) : Json
  | arr (elems : List Json) : Json
  | obj (fields : List (String × Json)) : Json

/-- Is a JSON number lexeme the number zero (`0`, `-0`, `0.00`, `0e9`, …)?
Used for JavaScript truthiness of numbers. -/
def numLexemeIsZero (lexeme : String) : Bool :=
  let l := lexeme.toList
  let l := match l with
    | '-' :: r => r
    | _ => l
  let mant := l.takeWhile (fun c => c ≠ 'e' && c ≠ 'E')
  (mant.filter (fun c => c ≠ '.')).all (fun c => c = '0')

mutual

/-- JavaScript `String(x)` on a parsed JSON value.  Arrays stringify by
joining their elements with commas (`Array.prototype.toString`), objects
as `[object Object]`. -/
def jsToString : Json → String
  | Json.null => "null"
  | Json.bool b => cond b ("true") ("false")
  | Json.num lexeme => lexeme
  | Json.str s => s
  | Json.arr elems => String.intercalate (",") (jsJoinParts elems)
  | Json.obj _ => "[object Object]"

/-- The per-element strings used by `Array.prototype.join` (`null` and
`undefined` elements become the empty string). -/
def jsJoinParts : List Json → List String
  | [] => []
  | Json.null :: rest => "" :: jsJoinParts rest
  | j :: rest => jsToString j :: jsJoinParts rest

end

/-- JavaScript truthiness of a possibly-undefined value (`none` stands for
`undefined`). -/
def jsTruthy : Option Json → Bool
  | none => false
  | some Json.null => false
  | some (Json.bool b) => b
  | some (Json.num lexeme) => !numLexemeIsZero lexeme
  | some (Json.str s) => s ≠ ""
  | some (Json.arr _) => true
  | some (Json.obj _) => true

/-- JavaScript `String(x)` where `x` may be `undefined`. -/
def jsToStringU : Option Json → String
  | none => "undefined"
  | some j => jsToString j

/-- Non-throwing property lookup: object fields only (on duplicate keys
`JSON.parse` keeps the last one, hence the reversed lookup); every
non-object — including arrays and primitives — yields `undefined`.
Callers must not apply this to `Json.null` (JavaScript would throw);
`jsMember` models the throwing access. -/
def jsGetField : Json → String → Option Json
  | Json.obj fields, key => (fields.reverse.lookup key)
  | _, _ => none

/-- Property access as an operation that can throw: reading a property of
`null` raises a `TypeError`. -/
def jsMember (j : Json) (key : String) : Except String (Option Json) :=
  match j with
  | Json.null => Except.error ("TypeError: cannot read properties of null")
  | _ => Except.ok (jsGetField j key)

/-- Is `typeof x === 'object'` true (objects, arrays, and `null`)? -/
def jsTypeofObject : Json → Bool
  | Json.obj _ => true
  | Json.arr _ => true
  | Json.null => true
  | _ => false

/-! ### A JSON parser (the model of `JSON.parse`)

Recursive descent over `List Char` with an explicit fuel argument (the
fuel passed at top level is generous: the parser consumes at least one
character for every three nested calls, so `4 * length + 8` can never be
exhausted on any input before the parse resolves). -/

/-- JSON insignificant whitespace. -/
def isJsonWs (c : Char) : Bool :=
  c = ' ' || c = '\t' || c = '\n' || c = '\r'

/-- Hexadecimal digit value. -/
def hexVal (c : Char) : Option Nat :=
  if '0' ≤ c ∧ c ≤ '9' then some (c.toNat - '0'.toNat)
  else if 'a' ≤ c ∧ c ≤ 'f' then some (c.toNat - 'a'.toNat + 10)
  else if 'A' ≤ c ∧ c ≤ 'F' then some (c.toNat - 'A'.toNat + 10)
  else none

/-- Parse the body of a JSON string (after the opening quote), returning
the decoded characters and the input remaining after the closing quote. -/
def parseStringBody : Nat → List Char → Option (List Char × List Char)
  | 0, _ => none
  | _, [] => none
  | fuel + 1, c :: rest =>
    if c = '"' then some ([], rest)
    else if c = '\\' then
      match rest with
      | [] => none
      | e :: rest2 =>
        let cont := fun (ch : Char) (r : List Char) =>
          (parseStringBody fuel r).map (fun p => (ch :: p.1, p.2))
        if e = '"' then cont '"' rest2
        else if e = '\\' then cont '\\' rest2
        else if e = '/' then cont '/' rest2
        else if e = 'b' then cont '\x08' rest2
        else if e = 'f' then cont '\x0c' rest2
        else if e = 'n' then cont '\n' rest2
        else if e = 'r' then cont '\r' rest2
        else if e = 't' then cont '\t' rest2
        else if e = 'u' then
          match rest2 with
          | a :: b :: c2 :: d :: rest3 =>
            match hexVal a, hexVal b, hexVal c2, hexVal d with
            | some ha, some hb, some hc, some hd =>
              cont (Char.ofNat (((ha * 16 + hb) * 16 + hc) * 16 + hd)) rest3
            | _, _, _, _ => none
          | _ => none
        else none
    else if c.toNat < 0x20 then none
    else (parseStringBody fuel rest).map (fun p => (c :: p.1, p.2))

/-- Parse a JSON number lexeme (`-?(0|[1-9][0-9]*)(\.[0-9]+)?([eE][+-]?[0-9]+)?`),
returning the lexeme and the rest of the input. -/
def parseNumLexeme (l : List Char) : Option (List Char × List Char) :=
  let isDigit := fun (c : Char) => '0' ≤ c && c ≤ '9'
  let (sign, l1) := match l with
    | '-' :: r => (['-'], r)
    | _ => (([] : List Char), l)
  match l1 with
  | [] => none
  | c :: r =>
    if c = '0' then
      -- a leading zero must stand alone
      some (sign ++ ['0'], r)
    else if isDigit c then
      let ds := r.takeWhile isDigit
      some (sign ++ c :: ds, r.drop ds.length)
    else none

/-- Parse an optional fraction part (`.digits`). -/
def parseFracPart (l : List Char) : Option (List Char × List Char) :=
  let isDigit := fun (c : Char) => '0' ≤ c && c ≤ '9'
  match l with
  | '.' :: r =>
    let ds := r.takeWhile isDigit
    if ds = [] then none else some ('.' :: ds, r.drop ds.length)
  | _ => some ([], l)

/-- Parse an optional exponent part (`e[+-]?digits`). -/
def parseExpPart (l : List Char) : Option (List Char × List Char) :=
  let isDigit := fun (c : Char) => '0' ≤ c && c ≤ '9'
  match l with
  | c :: r =>
    if c = 'e' ∨ c = 'E' then
      let (sg, r1) := match r with
        | '+' :: r2 => (['+'], r2)
        | '-' :: r2 => (['-'], r2)
        | _ => (([] : List Char), r)
      let ds := r1.takeWhile isDigit
      if ds = [] then none else some (c :: sg ++ ds, r1.drop ds.length)
    else some ([], c :: r)
  | [] => some ([], [])

mutual

/-- Parse one JSON value at the head of the input (no leading whitespace). -/
def parseValue : Nat → List Char → Option (Json × List Char)
  | 0, _ => none
  | fuel + 1, l =>
    match l with
    | [] => none
    | c :: rest =>
      if c = '"' then
        (parseStringBody (rest.length + 1) rest).map
          (fun p => (Json.str (String.mk p.1), p.2))
      else if c = '[' then
        parseElems fuel (rest.dropWhile isJsonWs)
      else if c = '{' then
        parseFields fuel (rest.dropWhile isJsonWs)
      else if c = 't' then
        (chompPre ['r', 'u', 'e'] rest).map (fun r => (Json.bool true, r))
      else if c = 'f' then
        (chompPre ['a', 'l', 's', 'e'] rest).map (fun r => (Json.bool false, r))
      else if c = 'n' then
        (chompPre ['u', 'l', 'l'] rest).map (fun r => (Json.null, r))
      else
        match parseNumLexeme (c :: rest) with
        | none => none
        | some (intPart, r1) =>
          match parseFracPart r1 with
          | none => none
          | some (fracPart, r2) =>
            match parseExpPart r2 with
            | none => none
            | some (expPart, r3) =>
              some (Json.num (String.mk (intPart ++ fracPart ++ expPart)), r3)

/-- Parse the elements of an array; called just after `[` (whitespace
already skipped). -/
def parseElems : Nat → List Char → Option (Json × List Char)
  | 0, _ => none
  | fuel + 1, l =>
    match l with
    | ']' :: rest => some (Json.arr [], rest)
    | _ =>
      (parseElemsLoop fuel l).map (fun p => (Json.arr p.1, p.2))

/-- Parse `value (ws ',' ws value)* ws ']'`. -/
def parseElemsLoop : Nat → List Char → Option (List Json × List Char)
  | 0, _ => none
  | fuel + 1, l =>
    match parseValue fuel l with
    | none => none
    | some (v, r) =>
      match r.dropWhile isJsonWs with
      | ',' :: r2 =>
        (parseElemsLoop fuel (r2.dropWhile isJsonWs)).map
          (fun p => (v :: p.1, p.2))
      | ']' :: r2 => some ([v], r2)
      | _ => none

/-- Parse the fields of an object; called just after `{` (whitespace
already skipped). -/
def parseFields : Nat → List Char → Option (Json × List Char)
  | 0, _ => none
  | fuel + 1, l =>
    match l with
    | '}' :: rest => some (Json.obj [], rest)
    | _ =>
      (parseFieldsLoop fuel l).map (fun p => (Json.obj p.1, p.2))

/-- Parse `string ws ':' ws value (ws ',' ws string ws ':' ws value)* ws '}'`. -/
def parseFieldsLoop : Nat → List Char → Option (List (String × Json) × List Char)
  | 0, _ => none
  | fuel + 1, l =>
    match l with
    | '"' :: rest =>
      match parseStringBody (rest.length + 1) rest with
      | none => none
      | some (key, r1) =>
        match r1.dropWhile isJsonWs with
        | ':' :: r2 =>
          match parseValue fuel (r2.dropWhile isJsonWs) with
          | none => none
          | some (v, r3) =>
            match r3.dropWhile isJsonWs with
            | ',' :: r4 =>
              (parseFieldsLoop fuel (r4.dropWhile isJsonWs)).map
                (fun p => ((String.mk key, v) :: p.1, p.2))
            | '}' :: r4 => some ([(String.mk key, v)], r4)
            | _ => none
        | _ => none
    | _ => none

end

/-- The model of `JSON.parse`: `some` on well-formed JSON text, `none` on
a parse failure (where `JSON.parse` would throw a `SyntaxError`). -/
def parseJson (l : List Char) : Option Json :=
  let body := l.dropWhile isJsonWs
  match parseValue (4 * body.length + 8) body with
  | some (v, rest) => if rest.dropWhile isJsonWs = [] then some v else none
  | none => none

/-! ### The fenced-code-block extraction of `parseAndValidateResponse`

`src/services/geminiService.ts` lines 297–312: the response text is
trimmed, then matched against the regular expression
(triple-backtick, optional json tag, lazy body, closing triple-backtick,
with the dot-matches-newline flag and no anchors); if a match with a
non-empty first capture group is found anywhere, that group (trimmed) is
used; otherwise the text from the first opening square bracket to the last
closing square bracket is used, when such a pair exists. -/

/-- The literal triple backtick. -/
def ticks : List Char := [tickChar, tickChar, tickChar]

/-- Can the tail pattern of the fence regex (optional newline, greedy
whitespace, closing triple backtick) match at the head of `l`?  Because a
backtick is not whitespace, backtracking inside the whitespace run cannot
help, so this is equivalent to skipping the maximal whitespace run. -/
def closingFenceAt (l : List Char) : Bool :=
  ticks.isPrefixOf (l.dropWhile isJsWs)

/-- The lazy capture group: the shortest leading segment of the input
after which the closing fence pattern matches. -/
def lazyBody : List Char → Option (List Char)
  | [] => none
  | c :: rest =>
    if closingFenceAt (c :: rest) then some []
    else (lazyBody rest).map (fun b => c :: b)

/-- Match the fence pattern at the current position, just after the
opening triple backtick: an optional literal json tag, greedy whitespace
(the optional newline of the pattern is subsumed: after the maximal
whitespace run the next character cannot be a newline), then the lazy
capture group. -/
def fenceTail (l : List Char) : Option (List Char) :=
  lazyBody (((chompPre ['j', 's', 'o', 'n'] l).getD l).dropWhile isJsWs)

/-- Scan for the leftmost position where the whole fence pattern matches,
returning the capture group (the body between the fences). -/
def findFence : List Char → Option (List Char)
  | [] => none
  | c :: rest => ((chompPre ticks (c :: rest)).bind fenceTail) <|> findFence rest

/-- The bracket fallback: `indexOf('[')` / `lastIndexOf(']')` and
`substring(first, last + 1)` when both exist and the last is after the
first; otherwise the input is left unchanged. -/
def bracketSlice (l : List Char) : List Char :=
  match l.findIdx? (fun c => c = '['), l.reverse.findIdx? (fun c => c = ']') with
  | some first, some revIdx =>
    let last := l.length - 1 - revIdx
    if first < last then (l.take (last + 1)).drop first else l
  | _, _ => l

/-- The full extraction pipeline of `parseAndValidateResponse` (lines
298–312): trim, prefer a non-empty fenced body (trimmed), otherwise the
bracket fallback. -/
def extractJsonStr (text : List Char) : List Char :=
  let jsonStr := jsTrim text
  match findFence jsonStr with
  | some body => if body ≠ [] then jsTrim body else bracketSlice jsonStr
  | none => bracketSlice jsonStr

/-! ### Domain data -/

/-- `ScriptLine` (`src/types.ts`).  Because `parseAndValidateResponse`
copies the `line` field of an untyped parsed element through unchecked
(defaulting only falsy values), the `line` field is modelled as a dynamic
value; well-typed lines carry `Json.str`. -/
structure ScriptLine where
  id : String
  speakerId : String
  line : Json

/-- The slice of `Persona` (`src/types.ts`) that the service-layer
functions under verification read: the stable id plus the display name.
(The remaining fields only feed prompt prose.) -/
structure Persona where
  id : String
  name : String

/-- The user-facing message thrown by `parseAndValidateResponse` when the
response cannot be parsed (line 328). -/
def invalidScriptFormatMsg : String :=
  "The AI returned an invalid script format. Please try generating again."

/-- The element-to-`ScriptLine` mapping applied by
`parseAndValidateResponse` (lines 318–321) at index `i`, as the JavaScript
engine evaluates it: property access throws on a `null` element, the
`speakerId` is coerced with `String(...)`, and a falsy `line` field is
replaced by the empty string. -/
def toScriptLine (now : Nat) (i : Nat) (item : Json) : Except String ScriptLine :=
  match jsMember item ("speakerId") with
  | Except.error e => Except.error e
  | Except.ok sid =>
    match jsMember item ("line") with
    | Except.error e => Except.error e
    | Except.ok ln =>
      Except.ok
        { id := toString now ++ "-" ++ toString i
          speakerId := jsToStringU sid
          line := if jsTruthy ln then ln.getD (Json.str ("")) else Json.str ("") }

/-- `parsedData.map(...)` with the index argument, short-circuiting at the
first thrown `TypeError` exactly as the JavaScript callback would. -/
def mapScriptLines (now : Nat) : Nat → List Json → Except String (List ScriptLine)
  | _, [] => Except.ok []
  | i, item :: rest =>
    match toScriptLine now i item with
    | Except.error e => Except.error e
    | Except.ok l =>
      match mapScriptLines now (i + 1) rest with
      | Except.error e => Except.error e
      | Except.ok ls => Except.ok (l :: ls)

/-- `parseAndValidateResponse` (`src/services/geminiService.ts` lines
297–330): extract, parse, require an array, map each element to a
`ScriptLine`, and keep only lines whose `speakerId` is a known persona id.
Any parse failure, the non-array case, and any exception thrown inside the
mapping are caught by the surrounding `try`/`catch` and re-raised as the
invalid-script-format domain error. -/
def parseAndValidateResponse (now : Nat) (text : List Char)
    (personas : List Persona) : Except String (List ScriptLine) :=
  let jsonStr := extractJsonStr text
  match parseJson jsonStr with
  | some (Json.arr items) =>
    match mapScriptLines now 0 items with
    | Except.ok lines =>
      Except.ok (lines.filter (fun l => (personas.map Persona.id).contains l.speakerId))
    | Except.error _ => Except.error invalidScriptFormatMsg
  | some _ => Except.error invalidScriptFormatMsg
  | none => Except.error invalidScriptFormatMsg

/-! ### `generateNextLine` (speaker rotation)

`src/services/geminiService.ts` lines 542–656.  The keyed path computes
the next speaker deterministically from the script and the persona list;
the model is only asked for the text of the line.  JavaScript semantics
that matter here: `script[script.length - 1].speakerId` may be the empty
string, which is falsy, so the `else if (lastSpeakerId)` branch is taken
only for a non-empty last speaker id; `findIndex` yields `-1` when no
persona matches; and `%` on the non-negative left operand agrees with
mathematical remainder. -/

/-- The next-speaker selection of `generateNextLine` (lines 558–573). -/
def nextSpeaker (script : List ScriptLine) (personas : List Persona) :
    Except String Persona :=
  let lastSpeakerId : Option String := (script.getLast?).map ScriptLine.speakerId
  match personas with
  | [] => Except.error ("No personas available to generate a line for.")
  | p0 :: rest =>
    if rest.isEmpty then Except.ok p0
    else
      match lastSpeakerId with
      | some sid =>
        if sid ≠ "" then
          let lastIdx : Int :=
            match (p0 :: rest).findIdx? (fun p => p.id = sid) with
            | some i => (i : Int)
            | none => -1
          let nextIdx : Nat := ((lastIdx + 1) % ((p0 :: rest).length : Int)).toNat
          Except.ok ((p0 :: rest).getD nextIdx p0)
        else Except.ok p0
      | none => Except.ok p0

/-- `generateNextLine` (lines 542–656), given the line text string the
model returned for the JSON object response: the returned `ScriptLine`
carries a timestamp id, the computed next speaker's id, and the trimmed
model line. -/
def generateNextLine (now : Nat) (script : List ScriptLine)
    (personas : List Persona) (responseLine : String) :
    Except String ScriptLine :=
  match nextSpeaker script personas with
  | Except.error e => Except.error e
  | Except.ok sp =>
    Except.ok
      { id := toString now
        speakerId := sp.id
        line := Json.str (String.mk (jsTrim responseLine.toList)) }

/-! ### `generateScript` request configuration

`src/services/geminiService.ts` lines 431–465: the request config starts
with the temperature, then either enables the search tool (leaving the
schema fields unset — they are not allowed together with tools) or
declares the JSON array response schema, and finally forwards the thinking
budget only for models whose name contains a supported marker and only
when the budget is positive. -/

/-- `GenerationSettings` (`src/types.ts`).  The two floating-point tunables
are modelled as integers; the claims under verification never inspect
them. -/
structure GenerationSettings where
  dialogueLengthInMinutes : Int
  conversationStyle : String
  complexityLevel : String
  modelName : String
  temperature : Int
  enableSearchGrounding : Bool
  thinkingBudget : Int

/-- The declared response schemas (`Type.ARRAY` / `Type.OBJECT` /
`Type.STRING` trees from the `@google/genai` `Type` enum). -/
inductive ResponseSchema where
  | string : ResponseSchema
  | array (items : ResponseSchema) : ResponseSchema
  | object (properties : List (String × ResponseSchema))
      (required : List String) : ResponseSchema

/-- The request tools (`config.tools`); this codebase only ever enables
Google Search. -/
inductive RequestTool where
  | googleSearch : RequestTool

/-- The request configuration object assembled by `generateScript`
(`const config: any = ...`); absent fields are `none`. -/
structure RequestConfig where
  temperature : Int
  tools : Option (List RequestTool)
  responseMimeType : Option String
  responseSchema : Option ResponseSchema
  thinkingConfig : Option Int

/-- The JSON array-of-(speakerId, line) response schema declared when
search grounding is off (lines 444–458). -/
def scriptResponseSchema : ResponseSchema :=
  ResponseSchema.array
    (ResponseSchema.object
      [("speakerId", ResponseSchema.string), ("line", ResponseSchema.string)]
      ["speakerId", "line"])

/-- JavaScript `String.prototype.includes`: is `needle` a contiguous
substring of the list? -/
def containsSeq (needle : List Char) : List Char → Bool
  | [] => needle.isEmpty
  | c :: rest => needle.isPrefixOf (c :: rest) || containsSeq needle rest

/-- Does the selected model support a thinking budget (line 463:
the model name contains the 2.5 or the 3-pro marker)? -/
def modelSupportsThinking (modelName : String) : Bool :=
  containsSeq ("2.5".toList) modelName.toList || containsSeq ("3-pro".toList) modelName.toList

/-- The configuration-building logic of `generateScript` (lines 432–465). -/
def generateScriptConfig (settings : GenerationSettings) : RequestConfig :=
  let config : RequestConfig :=
    { temperature := settings.temperature
      tools := none
      responseMimeType := none
      responseSchema := none
      thinkingConfig := none }
  let config :=
    if settings.enableSearchGrounding then
      -- responseMimeType and responseSchema are not allowed with tools
      { config with tools := some [RequestTool.googleSearch] }
    else
      { config with
          responseMimeType := some ("application/json")
          responseSchema := some scriptResponseSchema }
  if modelSupportsThinking settings.modelName && settings.thinkingBudget > 0 then
    { config with thinkingConfig := some settings.thinkingBudget }
  else config

/-! ### Persona import

`src/components/PersonaBuilder.tsx` lines 651–698 (`handleImportPersonas`):
parse the file text, require an array, keep the elements that are truthy,
of object type, and have truthy `name` and `role`, and rebuild each kept
element over the `emptyPersona` defaults with a regenerated id
(timestamp + dashed name) and defensively defaulted nested fields.  The
whole `reader.onload` body runs in one `try`/`catch`: any exception thrown
while mapping (for example `p.name.replace` when `name` is a truthy
non-string) aborts the entire import with an error and imports nothing. -/

/-- `speakingPatterns` as rebuilt by the importer: each field is the imported
object's value when present, otherwise the `emptyPersona`
default. -/
structure ImportedSpeakingPatterns where
  sentenceLength : Json
  vocabularyComplexity : Json
  humorLevel : Json
  commonPauses : Json
  fillerWords : Json
  speechImpediments : Json

/-- A persona as produced by `handleImportPersonas`: the regenerated id is
always a string, every other field carries whatever dynamic value the import
file supplied, defaulted from `emptyPersona`
(`src/components/PersonaBuilder.tsx` lines 20–38) when missing. -/
structure ImportedPersona where
  id : String
  name : String
  role : Json
  communicationStyle : Json
  expertiseLevel : Json
  personalityTraits : Json
  quirks : Json
  motivations : Json
  backstory : Json
  emotionalRange : Json
  speakingPatterns : ImportedSpeakingPatterns
  sourceDocuments : Json
  avatarUrl : Option Json

/-- Worker for `dashWsRuns`: the flag records whether the previous
character belonged to a whitespace run whose dash was already emitted. -/
def dashWsGo : Bool → List Char → List Char
  | _, [] => []
  | inWs, c :: rest =>
    if isJsWs c then
      if inWs then dashWsGo true rest else '-' :: dashWsGo true rest
    else c :: dashWsGo false rest

/-- JavaScript `name.replace(/\s+/g, '-')`: every maximal whitespace run
becomes a single dash. -/
def dashWsRuns (l : List Char) : List Char := dashWsGo false l

/-- The regenerated import id: the timestamp, a dash, and the dashed name
(line 672). -/
def importId (now : Nat) (name : String) : String :=
  toString now ++ "-" ++ String.mk (dashWsRuns name.toList)

/-- The filter of line 666: `p && typeof p === 'object' && p.name && p.role`.
The first conjunct (truthiness) rejects `null` before the property
accesses, so the lookups here are safe. -/
def importKeeps (p : Json) : Bool :=
  jsTruthy (some p) && jsTypeofObject p &&
  jsTruthy (jsGetField p ("name")) && jsTruthy (jsGetField p ("role"))

/-- A field of the merged `{...emptyPersona, ...personaData, ...}` object:
the imported object's value when the key is present, else the default.
(`personaData` is `p` minus its `id` key; none of the keys read here is
`id`.) -/
def importField (p : Json) (key : String) (dflt : Json) : Json :=
  match jsGetField p key with
  | some v => v
  | none => dflt

/-- The merged `speakingPatterns`: `{...emptyPersona.speakingPatterns,
...(personaData.speakingPatterns || {})}` (lines 675–678).  When the imported
`speakingPatterns` is absent, falsy, or not an object, spreading
contributes no named fields and the defaults survive. -/
def importSpeakingPatterns (p : Json) : ImportedSpeakingPatterns :=
  let sp : Json :=
    if jsTruthy (jsGetField p ("speakingPatterns")) then
      (jsGetField p ("speakingPatterns")).getD (Json.obj [])
    else Json.obj []
  let fld := fun (key : String) (dflt : Json) =>
    match sp with
    | Json.obj _ =>
      match jsGetField sp key with
      | some v => v
      | none => dflt
    | _ => dflt
  { sentenceLength := fld ("sentenceLength") (Json.str ("Medium"))
    vocabularyComplexity := fld ("vocabularyComplexity") (Json.str ("Average"))
    humorLevel := fld ("humorLevel") (Json.str ("Subtle"))
    commonPauses := fld ("commonPauses") (Json.str (""))
    fillerWords := fld ("fillerWords") (Json.str (""))
    speechImpediments := fld ("speechImpediments") (Json.str ("")) }

/-- The mapping of lines 667–680 for one kept element, as the JavaScript
engine evaluates it: `p.name.replace` throws a `TypeError` unless the
(truthy) `name` is a string. -/
def toImportedPersona (now : Nat) (p : Json) : Except String ImportedPersona :=
  match jsGetField p ("name") with
  | some (Json.str nm) =>
    Except.ok
      { id := importId now nm
        name := nm
        role := importField p ("role") (Json.str (""))
        communicationStyle := importField p ("communicationStyle") (Json.str ("Conversational"))
        expertiseLevel := importField p ("expertiseLevel") (Json.str ("Intermediate"))
        personalityTraits := importField p ("personalityTraits") (Json.arr [])
        quirks := importField p ("quirks") (Json.str (""))
        motivations := importField p ("motivations") (Json.str (""))
        backstory := importField p ("backstory") (Json.str (""))
        emotionalRange := importField p ("emotionalRange") (Json.str (""))
        speakingPatterns := importSpeakingPatterns p
        sourceDocuments :=
          if jsTruthy (jsGetField p ("sourceDocuments")) then
            (jsGetField p ("sourceDocuments")).getD (Json.arr [])
          else Json.arr []
        avatarUrl :=
          if jsTruthy (jsGetField p ("avatarUrl")) then jsGetField p ("avatarUrl")
          else none }
  | _ => Except.error ("TypeError: p.name.replace is not a function")

/-- Map the kept elements, short-circuiting at the first throw. -/
def mapImportedPersonas (now : Nat) :
    List Json → Except String (List ImportedPersona)
  | [] => Except.ok []
  | p :: rest =>
    match toImportedPersona now p with
    | Except.error e => Except.error e
    | Except.ok q =>
      match mapImportedPersonas now rest with
      | Except.error e => Except.error e
      | Except.ok qs => Except.ok (q :: qs)

/-- `handleImportPersonas` from the parsed file value onwards (lines
661–687): require an array, filter, map, and reject the import when a
non-empty file yields no valid persona.  An `Except.error` models the
`catch` branch, in which nothing is imported. -/
def importPersonas (now : Nat) (imported : Json) :
    Except String (List ImportedPersona) :=
  match imported with
  | Json.arr elems =>
    match mapImportedPersonas now (elems.filter importKeeps) with
    | Except.error e => Except.error e
    | Except.ok valid =>
      if valid.length = 0 ∧ elems.length > 0 then
        Except.error ("No valid personas found in the file. Ensure each persona has a name and role.")
      else Except.ok valid
  | _ => Except.error ("Imported file is not a valid persona array.")

/-- `handleImportPersonas` from the raw file text (`JSON.parse` plus the
above). -/
def importPersonasFromText (now : Nat) (text : List Char) :
    Except String (List ImportedPersona) :=
  match parseJson text with
  | some j => importPersonas now j
  | none => Except.error ("Unexpected token in JSON")

/-! ### Document ingestion batch

`src/components/PersonaBuilder.tsx` lines 47–102 (`handleFileChange`):
when the total document count would exceed three, the batch is rejected
wholesale; otherwise the files are processed one at a time, each
`processDocument` call wrapped in its own `try`/`catch`, so one failing
file contributes an error-status document and the loop continues with the
next file.  The asynchronous `processDocument` call is modelled by the
per-file outcome carried in the batch description. -/

/-- `DocumentMetadata` (`src/types.ts`). -/
structure DocumentMetadata where
  author : Option String
  date : Option String
  domain : Option String
  fileType : Option String

/-- `DocumentChunk` (`src/types.ts`). -/
structure DocumentChunk where
  id : String
  content : String
  topics : List String

/-- The `processingStatus` union of `SourceDocument`. -/
inductive ProcessingStatus where
  | processing : ProcessingStatus
  | completed : ProcessingStatus
  | error : ProcessingStatus
deriving DecidableEq

/-- `SourceDocument` (`src/types.ts`). -/
structure SourceDocument where
  id : String
  name : String
  content : String
  metadata : Option DocumentMetadata
  chunks : Option (List DocumentChunk)
  topics : Option (List String)
  processingStatus : ProcessingStatus
  errorMessage : Option String

/-- The `Partial<SourceDocument>` fragment returned by a successful
`processDocument` call. -/
structure ProcessedFragment where
  content : Option String
  metadata : Option DocumentMetadata
  chunks : Option (List DocumentChunk)
  topics : Option (List String)

/-- One file of an upload batch: its name, the `Date.now()` stamp used
for its temporary id, and the outcome its `processDocument` call resolves
to (`Except.error` models a rejection, carrying the thrown message). -/
structure BatchFile where
  name : String
  stamp : Nat
  outcome : Except String ProcessedFragment

/-- The document pushed for one file (loop body, lines 59–97):
a completed document built from the processed fragment, or an
error-status document recording the failure message. -/
def batchDoc (f : BatchFile) : SourceDocument :=
  let tempId := toString f.stamp ++ "-" ++ f.name
  match f.outcome with
  | Except.ok pd =>
    { id := tempId
      name := f.name
      content := pd.content.getD ("")
      metadata := pd.metadata
      chunks := pd.chunks
      topics := pd.topics
      processingStatus := ProcessingStatus.completed
      errorMessage := none }
  | Except.error msg =>
    { id := tempId
      name := f.name
      content := ""
      metadata := none
      chunks := none
      topics := none
      processingStatus := ProcessingStatus.error
      errorMessage := some msg }

/-- `handleFileChange` on the persona's document list: the guard of line
51 rejects oversized batches (leaving the documents unchanged); otherwise
every file appends its document, failures included, and the function never
propagates a failure. -/
def handleFileChange (existing : List SourceDocument) (files : List BatchFile) :
    List SourceDocument :=
  if existing.length + files.length > 3 then existing
  else existing ++ files.map batchDoc

/-- The message thrown by `processDocument` when the model call or the
response parse fails (line 216); it becomes the `errorMessage` of the
failed document. -/
def processDocumentFailureMsg : String := "Failed to process document with AI."

/-! ### Topic-extraction prompts

`extractTopicsFromContext` (lines 61–96) embeds at most the first 30,000
characters of the source text in its analysis prompt
(`text.substring(0, 30000)`); `processDocument` (lines 106–127) embeds the
full extracted text of a non-PDF document in its analysis prompt with no
truncation. -/

/-- The source text as embedded by `extractTopicsFromContext`
(`text.substring(0, 30000)`, line 74). -/
def truncatedAnalysisText (text : List Char) : List Char :=
  text.take 30000

/-- The prompt of `extractTopicsFromContext` (lines 66–75). -/
def extractTopicsPrompt (text : List Char) : List Char :=
  ("Perform semantic analysis on the provided source text. Return the top 10 most significant topics as a list of strings. SOURCE TEXT: ").toList
    ++ truncatedAnalysisText text
    ++ ("... (truncated for analysis)").toList

/-- The text part `processDocument` builds for a plain-text or Word
document (lines 111 and 126): the full text content, untruncated. -/
def processDocumentTextPart (textContent : List Char) : List Char :=
  ("Analyze the following text content:\n").toList ++ textContent

/-! ### `extractTopicsFromContext` error behaviour

Lines 77–95: one `try`/`catch` wraps both the model call and
`JSON.parse(response.text)`; the `catch` returns the empty array, so the
function never throws.  The model call is represented by its outcome:
`Except.error` for a rejected call, `Except.ok text` for a response
text. -/

/-- The value returned by `extractTopicsFromContext` given the model
call's outcome.  A successful parse is returned as-is (the code casts it
to `string[]` without checking); every failure path yields the empty
array. -/
def extractTopicsOutcome (response : Except String String) : Json :=
  match response with
  | Except.error _ => Json.arr []
  | Except.ok text =>
    match parseJson text.toList with
    | some j => j
    | none => Json.arr []

/-- Is a value the JSON `null`? -/
def Json.isNull : Json → Bool
  | Json.null => true
  | _ => false

/-! ## Claim theorems -/

/-- C5: for every `GenerationSettings`, the request configuration built by
`generateScript` never contains both a search-grounding tool and a
declared response schema: with `enableSearchGrounding` on, the config
carries exactly the Google Search tool and no
`responseMimeType`/`responseSchema`; with it off, the config carries the
JSON array response schema (and its mime type) and no tools. -/
theorem generateScriptConfig_tools_schema_exclusive (settings : GenerationSettings) :
    ((generateScriptConfig settings).tools,
      (generateScriptConfig settings).responseMimeType,
      (generateScriptConfig settings).responseSchema) =
      (if settings.enableSearchGrounding then
        (some [RequestTool.googleSearch], none, none)
      else
        (none, some ("application/json"), some scriptResponseSchema)) ∧
    ((generateScriptConfig settings).tools = none ∨
      (generateScriptConfig settings).responseSchema = none) := by
  cases h : settings.enableSearchGrounding <;>
    simp only [generateScriptConfig, h, if_true, if_false, Bool.false_eq_true] <;>
    split <;> simp

/-- C8 (amended part): `extractTopicsFromContext` embeds only the first
30,000 characters of the source text: the embedded portion is a segment
of the prompt and never exceeds 30,000 characters. -/
theorem extractTopicsPrompt_truncates (text : List Char) :
    (truncatedAnalysisText text).length ≤ 30000 ∧
    ∃ intro outro,
      extractTopicsPrompt text = intro ++ truncatedAnalysisText text ++ outro := by
  refine ⟨?_, _, _, rfl⟩
  simp only [truncatedAnalysisText, List.length_take]
  exact min_le_left _ _

/-- A 30,001-character source text, one character longer than the
truncation budget of the topic-extraction prompt. -/
def overBudgetText : List Char := List.replicate 30001 'a'

/-- C8 (counterexample): `processDocument` embeds the raw text of a
plain-text document in its analysis prompt untruncated — for a
30,001-character text the prompt part contains all 30,001 characters,
exceeding the 30,000-character budget the claim asserts for every
topic-extraction analysis prompt (this prompt requests per-chunk and
document-level topic analysis). -/
theorem processDocument_embeds_untruncated :
    processDocumentTextPart overBudgetText =
      ("Analyze the following text content:\n").toList ++ overBudgetText ∧
    30000 < overBudgetText.length := by
  constructor
  · rfl
  · simp only [overBudgetText, List.length_replicate]
    omega

/-- C10: `extractTopicsFromContext` never propagates a failure: whenever
the model call is rejected, or its response text does not parse as JSON,
the function returns the empty topic array instead of raising. -/
theorem extractTopicsOutcome_empty_on_failure (response : Except String String)
    (h : ∀ t, response = Except.ok t → parseJson t.toList = none) :
    extractTopicsOutcome response = Json.arr [] := by
  cases response with
  | error e => rfl
  | ok t =>
    simp only [extractTopicsOutcome]
    rw [h t rfl]

/-- Witness for C10 at both failure kinds: a rejected model call, and a
response that is not JSON. -/
theorem extractTopicsOutcome_empty_on_failure_witness :
    extractTopicsOutcome (Except.error ("model unavailable")) = Json.arr [] ∧
    (∀ t, (Except.ok ("not json") : Except String String) = Except.ok t →
      parseJson t.toList = none) ∧
    extractTopicsOutcome (Except.ok ("not json")) = Json.arr [] := by
  refine ⟨?_, ?_, ?_⟩
  · exact extractTopicsOutcome_empty_on_failure _ (fun t ht => by cases ht)
  · intro t ht
    cases ht
    rfl
  · exact extractTopicsOutcome_empty_on_failure _ (fun t ht => by cases ht; rfl)

/-- C7: in an accepted multi-file batch, each file's document is
determined by that file alone: the entry appended for the `i`-th file is
`batchDoc` of that file, an error outcome yields an error-status document
carrying the thrown message, and an ok outcome yields a completed-status
document — so one failing file cannot keep a sibling from completing, and
`handleFileChange` is total (no failure escapes the batch boundary). -/
theorem handleFileChange_isolates_failures (existing : List SourceDocument)
    (files : List BatchFile) (i : Nat) (f : BatchFile)
    (hsize : existing.length + files.length ≤ 3)
    (hf : files[i]? = some f) :
    (handleFileChange existing files)[existing.length + i]? = some (batchDoc f) ∧
    (∀ msg, f.outcome = Except.error msg →
      (batchDoc f).processingStatus = ProcessingStatus.error ∧
      (batchDoc f).errorMessage = some msg) ∧
    (∀ pd, f.outcome = Except.ok pd →
      (batchDoc f).processingStatus = ProcessingStatus.completed ∧
      (batchDoc f).errorMessage = none) := by
  refine ⟨?_, ?_, ?_⟩
  · have hguard : ¬ existing.length + files.length > 3 := by omega
    simp only [handleFileChange, if_neg hguard]
    rw [List.getElem?_append_right (by omega)]
    simp only [Nat.add_sub_cancel_left, List.getElem?_map, hf, Option.map_some']
  · intro msg hmsg
    simp [batchDoc, hmsg]
  · intro pd hpd
    simp [batchDoc, hpd]

/-- A successfully processed batch file. -/
def batchFileOkEx : BatchFile :=
  { name := "notes.txt"
    stamp := 41
    outcome := Except.ok
      { content := some ("hello")
        metadata := none
        chunks := none
        topics := none } }

/-- A batch file whose processing fails with the `processDocument`
failure message. -/
def batchFileErrEx : BatchFile :=
  { name := "scan.pdf"
    stamp := 42
    outcome := Except.error processDocumentFailureMsg }

/-- Witness for C7: a two-file batch in which the second file fails; the
failed entry is an error document with the thrown message, and the result
still contains the first file's completed document. -/
theorem handleFileChange_isolates_failures_witness :
    ([] : List SourceDocument).length + [batchFileOkEx, batchFileErrEx].length ≤ 3 ∧
    ([batchFileOkEx, batchFileErrEx])[1]? = some batchFileErrEx ∧
    ((handleFileChange [] [batchFileOkEx, batchFileErrEx])[([] : List SourceDocument).length + 1]? =
        some (batchDoc batchFileErrEx) ∧
      (∀ msg, batchFileErrEx.outcome = Except.error msg →
        (batchDoc batchFileErrEx).processingStatus = ProcessingStatus.error ∧
        (batchDoc batchFileErrEx).errorMessage = some msg) ∧
      (∀ pd, batchFileErrEx.outcome = Except.ok pd →
        (batchDoc batchFileErrEx).processingStatus = ProcessingStatus.completed ∧
        (batchDoc batchFileErrEx).errorMessage = none)) ∧
    (batchDoc batchFileOkEx).processingStatus = ProcessingStatus.completed := by
  refine ⟨by decide, rfl, ?_, rfl⟩
  exact handleFileChange_isolates_failures [] [batchFileOkEx, batchFileErrEx] 1
    batchFileErrEx (by decide) rfl

/-- An index returned by `findIdx?` is within bounds (stated for the
running start index). -/
theorem findIdx?_some_lt {α : Type} (p : α → Bool) :
    ∀ (l : List α) (s i : Nat), l.findIdx? p s = some i → s ≤ i ∧ i - s < l.length := by
  intro l
  induction l with
  | nil => intro s i h; simp [List.findIdx?_nil] at h
  | cons x xs ih =>
    intro s i h
    rw [List.findIdx?_cons] at h
    by_cases hp : p x = true
    · rw [if_pos hp] at h
      cases h
      simp only [List.length_cons]
      omega
    · rw [if_neg hp] at h
      have := ih (s + 1) i h
      simp only [List.length_cons]
      omega

/-- The `(lastIndex + 1) % n` step of the rotation, carried out in
JavaScript number arithmetic (modelled on `Int`), agrees with natural
remainder arithmetic when the index was found. -/
theorem rotationIndex_eq (i n : Nat) :
    (((i : Int) + 1) % (n : Int)).toNat = (i + 1) % n := by
  have h1 : ((i : Int) + 1) % (n : Int) = (((i + 1) % n : Nat) : Int) := by
    rw [Int.ofNat_emod]
    push_cast
    ring_nf
  rw [h1]
  exact Int.toNat_natCast _

/-- `nextSpeaker` with a single persona always picks it. -/
theorem nextSpeaker_single (script : List ScriptLine) (p0 : Persona) :
    nextSpeaker script [p0] = Except.ok p0 := by
  simp [nextSpeaker]

/-- `nextSpeaker` on an empty script picks the first persona. -/
theorem nextSpeaker_empty_script (p0 : Persona) (ps : List Persona) :
    nextSpeaker [] (p0 :: ps) = Except.ok p0 := by
  cases ps <;> simp [nextSpeaker]

/-- `nextSpeaker`, keyed case: when the last line's speaker id is
non-empty and is found at index `i`, the speaker at `(i + 1) % n` is
picked. -/
theorem nextSpeaker_keyed (script : List ScriptLine) (p0 : Persona)
    (ps : List Persona) (last : ScriptLine) (i : Nat)
    (hlast : script.getLast? = some last)
    (hne : last.speakerId ≠ "")
    (hidx : (p0 :: ps).findIdx? (fun p => p.id = last.speakerId) = some i) :
    nextSpeaker script (p0 :: ps) =
      Except.ok ((p0 :: ps).getD ((i + 1) % (p0 :: ps).length) p0) := by
  cases ps with
  | nil =>
    have hi : i = 0 := by
      have := findIdx?_some_lt _ _ 0 i hidx
      simp only [List.length_cons, List.length_nil] at this
      omega
    subst hi
    simp [nextSpeaker_single]
  | cons p1 ps' =>
    simp only [nextSpeaker, hlast, Option.map_some', List.isEmpty_cons,
      if_neg (by simp : ¬ (false = true))]
    rw [if_pos hne, hidx]
    simp only [rotationIndex_eq]

/-- C1 (amended): `generateNextLine` rotates speakers round-robin over
the ordered persona list — a single persona always speaks; an empty
script gives the floor to the first persona; and when the last line's
speaker id is non-empty and occurs at index `i`, the returned line's
`speakerId` is the id of the persona at `(i + 1) mod n`.  (The amendment:
a non-empty script whose last line carries the empty-string speaker id is
treated like an empty script, because the empty string is falsy — see the
counterexample.) -/
theorem generateNextLine_round_robin (now : Nat) (resp : String)
    (script : List ScriptLine) (p0 : Persona) (ps : List Persona) :
    (ps = [] →
      ∃ l, generateNextLine now script (p0 :: ps) resp = Except.ok l ∧
        l.speakerId = p0.id) ∧
    (script = [] →
      ∃ l, generateNextLine now script (p0 :: ps) resp = Except.ok l ∧
        l.speakerId = p0.id) ∧
    (∀ last i, script.getLast? = some last → last.speakerId ≠ "" →
      (p0 :: ps).findIdx? (fun p => p.id = last.speakerId) = some i →
      ∃ q l, (p0 :: ps)[(i + 1) % (p0 :: ps).length]? = some q ∧
        generateNextLine now script (p0 :: ps) resp = Except.ok l ∧
        l.speakerId = q.id) := by
  refine ⟨?_, ?_, ?_⟩
  · rintro rfl
    refine ⟨{ id := toString now
              speakerId := p0.id
              line := Json.str (String.mk (jsTrim resp.toList)) }, ?_, rfl⟩
    simp [generateNextLine, nextSpeaker_single]
  · rintro rfl
    refine ⟨{ id := toString now
              speakerId := p0.id
              line := Json.str (String.mk (jsTrim resp.toList)) }, ?_, rfl⟩
    simp [generateNextLine, nextSpeaker_empty_script]
  · intro last i hlast hne hidx
    have hlt : (i + 1) % (p0 :: ps).length < (p0 :: ps).length :=
      Nat.mod_lt _ (by simp)
    refine ⟨(p0 :: ps).getD ((i + 1) % (p0 :: ps).length) p0,
      { id := toString now
        speakerId := ((p0 :: ps).getD ((i + 1) % (p0 :: ps).length) p0).id
        line := Json.str (String.mk (jsTrim resp.toList)) }, ?_, ?_, rfl⟩
    · rw [List.getElem?_eq_getElem hlt, List.getD_eq_getElem?_getD,
        List.getElem?_eq_getElem hlt]
      rfl
    · simp [generateNextLine, nextSpeaker_keyed script p0 ps last i hlast hne hidx]

/-- Witness for C1: three personas, the last line spoken by the second;
the generated line is spoken by the third. -/
theorem generateNextLine_round_robin_witness :
    ([⟨"a1", "Alex"⟩, ⟨"s1", "Sam"⟩, ⟨"j1", "Jo"⟩] : List Persona).findIdx?
        (fun p => p.id = ("s1" : String)) = some 1 ∧
    (⟨"x", "s1", Json.str ("hello")⟩ : ScriptLine).speakerId ≠ "" ∧
    ∃ q l,
      ([⟨"a1", "Alex"⟩, ⟨"s1", "Sam"⟩, ⟨"j1", "Jo"⟩] : List Persona)[(1 + 1) % 3]? = some q ∧
      generateNextLine 9 [⟨"x", "s1", Json.str ("hello")⟩]
        [⟨"a1", "Alex"⟩, ⟨"s1", "Sam"⟩, ⟨"j1", "Jo"⟩] ("next line") = Except.ok l ∧
      l.speakerId = q.id := by
  refine ⟨by decide, by decide, ?_⟩
  exact (generateNextLine_round_robin 9 ("next line") [⟨"x", "s1", Json.str ("hello")⟩]
    ⟨"a1", "Alex"⟩ [⟨"s1", "Sam"⟩, ⟨"j1", "Jo"⟩]).2.2 ⟨"x", "s1", Json.str ("hello")⟩ 1
    rfl (by decide) (by decide)

/-- The persona whose id is the empty string (degenerate but
representable: ids are plain strings). -/
def personaEmptyId : Persona := { id := "", name := "Empty" }

/-- A second persona. -/
def personaB : Persona := { id := "pB", name := "B" }

/-- C1 (counterexample to the claim as stated): with two personas whose
first has the empty-string id and a script whose last line was spoken by
that persona (index 0), strict round-robin demands the persona at index
`(0 + 1) mod 2 = 1`; but the empty string is falsy, so the code takes the
empty-script branch and returns the persona at index 0 again. -/
theorem generateNextLine_round_robin_counterexample :
    nextSpeaker [⟨"l1", "", Json.str ("hi")⟩] [personaEmptyId, personaB] =
      Except.ok personaEmptyId ∧
    ([personaEmptyId, personaB] : List Persona).findIdx?
      (fun p => p.id = ("" : String)) = some 0 ∧
    (0 + 1) % ([personaEmptyId, personaB] : List Persona).length = 1 ∧
    ([personaEmptyId, personaB] : List Persona)[1]? = some personaB ∧
    personaEmptyId.id ≠ personaB.id := by
  refine ⟨rfl, by decide, by decide, rfl, by decide⟩

/-- C9: when the last line's speaker id matches no persona, the failed
`findIndex` yields `-1` and `(-1 + 1) mod n = 0`, so `generateNextLine`
returns a line spoken by the first persona instead of raising (the
empty-string id reaches the same result through the falsy branch). -/
theorem generateNextLine_unknown_speaker (now : Nat) (resp : String)
    (script : List ScriptLine) (p0 : Persona) (ps : List Persona)
    (last : ScriptLine)
    (hlast : script.getLast? = some last)
    (hunknown : ∀ p ∈ p0 :: ps, p.id ≠ last.speakerId) :
    ∃ l, generateNextLine now script (p0 :: ps) resp = Except.ok l ∧
      l.speakerId = p0.id := by
  refine ⟨{ id := toString now
            speakerId := p0.id
            line := Json.str (String.mk (jsTrim resp.toList)) }, ?_, rfl⟩
  have hidx : (p0 :: ps).findIdx? (fun p => p.id = last.speakerId) = none := by
    rw [List.findIdx?_eq_none_iff]
    intro x hx
    simpa using hunknown x hx
  cases ps with
  | nil => simp [generateNextLine, nextSpeaker_single]
  | cons p1 ps' =>
    by_cases hne : last.speakerId = ""
    · simp [generateNextLine, nextSpeaker, hlast, hne]
    · simp only [generateNextLine, nextSpeaker, hlast, Option.map_some',
        List.isEmpty_cons, if_neg (by simp : ¬ (false = true))]
      rw [if_pos hne, hidx]
      norm_num

/-- Witness for C9: a script whose last speaker id matches neither
persona still yields a line, spoken by the first persona. -/
theorem generateNextLine_unknown_speaker_witness :
    ([⟨"ln", "zzz", Json.str ("?")⟩] : List ScriptLine).getLast? =
      some ⟨"ln", "zzz", Json.str ("?")⟩ ∧
    (∀ p ∈ ([⟨"a1", "A"⟩, ⟨"b1", "B"⟩] : List Persona),
      p.id ≠ (⟨"ln", "zzz", Json.str ("?")⟩ : ScriptLine).speakerId) ∧
    ∃ l, generateNextLine 4 [⟨"ln", "zzz", Json.str ("?")⟩]
        [⟨"a1", "A"⟩, ⟨"b1", "B"⟩] ("and then") = Except.ok l ∧
      l.speakerId = (⟨"a1", "A"⟩ : Persona).id := by
  refine ⟨rfl, by decide, ?_⟩
  exact generateNextLine_unknown_speaker 4 ("and then") _ ⟨"a1", "A"⟩ [⟨"b1", "B"⟩]
    ⟨"ln", "zzz", Json.str ("?")⟩ rfl (by decide)

/-! ### C2/C3: the parse-and-validate contract -/

/-- The spec-side description of the element mapping (§4.4 step 5 of the
spec): a fresh id from the timestamp and the element index, the
stringified `speakerId` field, and the `line` field with falsy values
replaced by the empty string. -/
def claimScriptLine (now : Nat) (i : Nat) (item : Json) : ScriptLine :=
  { id := toString now ++ "-" ++ toString i
    speakerId := jsToStringU (jsGetField item ("speakerId"))
    line :=
      if jsTruthy (jsGetField item ("line")) then
        (jsGetField item ("line")).getD (Json.str (""))
      else Json.str ("") }

/-- The spec-side description of the whole array mapping: map every
element in order, then keep exactly the lines whose speaker id is a known
persona id. -/
def claimScriptLines (now : Nat) (personas : List Persona) (items : List Json) :
    List ScriptLine :=
  (items.enum.map (fun p => claimScriptLine now p.1 p.2)).filter
    (fun l => (personas.map Persona.id).contains l.speakerId)

/-- On a null-free element list the JavaScript mapper cannot throw, and
it produces exactly the spec-side mapping (stated for an arbitrary
starting index). -/
theorem mapScriptLines_eq_claim (now : Nat) :
    ∀ (items : List Json) (i : Nat),
      (∀ item ∈ items, item.isNull = false) →
      mapScriptLines now i items =
        Except.ok ((items.enumFrom i).map (fun p => claimScriptLine now p.1 p.2)) := by
  intro items
  induction items with
  | nil => intro i _; rfl
  | cons item rest ih =>
    intro i h
    have hitem : item.isNull = false := h item (List.mem_cons_self _ _)
    have hstep : toScriptLine now i item = Except.ok (claimScriptLine now i item) := by
      cases item <;> simp_all [toScriptLine, jsMember, claimScriptLine, Json.isNull]
    simp only [mapScriptLines, hstep]
    rw [ih (i + 1) (fun x hx => h x (List.mem_cons_of_mem _ hx))]
    rfl

/-- C2 (amended): whenever the extracted text parses to a JSON array with
no null element, `parseAndValidateResponse` returns exactly the array's
elements in order, each mapped to a `ScriptLine` with a fresh
timestamp-index id, the stringified `speakerId`, and the line text
defaulting to the empty string when absent, keeping only the lines whose
speaker id matches a persona id.  (The amendment: a null array element
makes the call raise the invalid-format error instead, because property
access on null throws inside the mapper — see the counterexample.) -/
theorem parseAndValidateResponse_maps_and_filters (now : Nat)
    (personas : List Persona) (text : List Char) (items : List Json)
    (hparse : parseJson (extractJsonStr text) = some (Json.arr items))
    (hnonull : ∀ item ∈ items, item.isNull = false) :
    parseAndValidateResponse now text personas =
      Except.ok (claimScriptLines now personas items) := by
  simp only [parseAndValidateResponse, hparse]
  rw [mapScriptLines_eq_claim now items 0 hnonull]
  rfl

/-- Witness for C2, the spec's own orphan-filtering example: one valid
persona id and a parsed array with a valid and a ghost entry; only the
valid entry survives, with its generated id and text. -/
theorem parseAndValidateResponse_maps_and_filters_witness :
    parseJson (extractJsonStr
        ("[\x7b\"speakerId\": \"p1\", \"line\": \"hi\"\x7d, \x7b\"speakerId\": \"ghost\", \"line\": \"boo\"\x7d]").toList) =
      some (Json.arr
        [Json.obj [("speakerId", Json.str ("p1")), ("line", Json.str ("hi"))],
          Json.obj [("speakerId", Json.str ("ghost")), ("line", Json.str ("boo"))]]) ∧
    parseAndValidateResponse 12
        ("[\x7b\"speakerId\": \"p1\", \"line\": \"hi\"\x7d, \x7b\"speakerId\": \"ghost\", \"line\": \"boo\"\x7d]").toList
        [⟨"p1", "Alex"⟩] =
      Except.ok [{ id := "12-0", speakerId := "p1", line := Json.str ("hi") }] := by
  constructor
  · rfl
  · rw [parseAndValidateResponse_maps_and_filters 12 [⟨"p1", "Alex"⟩] _
      [Json.obj [("speakerId", Json.str ("p1")), ("line", Json.str ("hi"))],
        Json.obj [("speakerId", Json.str ("ghost")), ("line", Json.str ("boo"))]]
      (by rfl) (by decide)]
    rfl

/-- C2 (counterexample to the claim as stated): the text parses to the
JSON array `[null]`, whose only element has no matching speaker id, so
the claim predicts the empty accepted list; but the mapper throws on the
null element and the call raises the invalid-format error instead. -/
theorem parseAndValidateResponse_null_counterexample :
    parseJson (extractJsonStr ("[null]").toList) = some (Json.arr [Json.null]) ∧
    claimScriptLines 12 [⟨"p1", "Alex"⟩] [Json.null] = [] ∧
    parseAndValidateResponse 12 ("[null]").toList [⟨"p1", "Alex"⟩] =
      Except.error invalidScriptFormatMsg := by
  exact ⟨rfl, rfl, rfl⟩

/-- Does the extracted text parse to a JSON array? (The decidable
hypothesis form of C3.) -/
def parsesToArray (text : List Char) : Bool :=
  match parseJson (extractJsonStr text) with
  | some (Json.arr _) => true
  | _ => false

/-- C3: whenever the extraction steps yield a string that is not
well-formed JSON, or parses to a non-array value, the call raises the
invalid-script-format domain error — it never returns a (partial) line
list. -/
theorem parseAndValidateResponse_rejects_invalid (now : Nat)
    (personas : List Persona) (text : List Char)
    (h : parsesToArray text = false) :
    parseAndValidateResponse now text personas =
      Except.error invalidScriptFormatMsg := by
  simp only [parsesToArray] at h
  simp only [parseAndValidateResponse]
  cases hp : parseJson (extractJsonStr text) with
  | none => rfl
  | some j =>
    cases j <;> simp_all

/-- Witness for C3 on the spec's example shapes: a truncated array (and
object missing its closing brace) raises the invalid-format error. -/
theorem parseAndValidateResponse_rejects_invalid_witness :
    parsesToArray ("[\x7b\"speakerId\": \"p1\", \"line\": \"hi\"").toList = false ∧
    parseAndValidateResponse 3 ("[\x7b\"speakerId\": \"p1\", \"line\": \"hi\"").toList
        [⟨"p1", "Alex"⟩] =
      Except.error invalidScriptFormatMsg := by
  refine ⟨rfl, ?_⟩
  exact parseAndValidateResponse_rejects_invalid 3 [⟨"p1", "Alex"⟩] _ rfl

/-! ### C6: persona import -/

/-- The spec-side description of one imported persona (total; it agrees
with the code's mapper whenever the kept element's `name` is a string). -/
def claimImportedPersona (now : Nat) (p : Json) : ImportedPersona :=
  let nm := match jsGetField p ("name") with
    | some (Json.str s) => s
    | _ => ""
  { id := importId now nm
    name := nm
    role := importField p ("role") (Json.str (""))
    communicationStyle := importField p ("communicationStyle") (Json.str ("Conversational"))
    expertiseLevel := importField p ("expertiseLevel") (Json.str ("Intermediate"))
    personalityTraits := importField p ("personalityTraits") (Json.arr [])
    quirks := importField p ("quirks") (Json.str (""))
    motivations := importField p ("motivations") (Json.str (""))
    backstory := importField p ("backstory") (Json.str (""))
    emotionalRange := importField p ("emotionalRange") (Json.str (""))
    speakingPatterns := importSpeakingPatterns p
    sourceDocuments :=
      if jsTruthy (jsGetField p ("sourceDocuments")) then
        (jsGetField p ("sourceDocuments")).getD (Json.arr [])
      else Json.arr []
    avatarUrl :=
      if jsTruthy (jsGetField p ("avatarUrl")) then jsGetField p ("avatarUrl")
      else none }

/-- When every kept element's `name` is a string, the import mapper
cannot throw and produces the spec-side personas. -/
theorem mapImportedPersonas_eq_claim (now : Nat) :
    ∀ (l : List Json),
      (∀ p ∈ l, ∃ s, jsGetField p ("name") = some (Json.str s)) →
      mapImportedPersonas now l = Except.ok (l.map (claimImportedPersona now)) := by
  intro l
  induction l with
  | nil => intro _; rfl
  | cons p rest ih =>
    intro h
    obtain ⟨s, hs⟩ := h p (List.mem_cons_self _ _)
    have hstep : toImportedPersona now p = Except.ok (claimImportedPersona now p) := by
      simp only [toImportedPersona, hs, claimImportedPersona]
    simp only [mapImportedPersonas, hstep]
    rw [ih (fun x hx => h x (List.mem_cons_of_mem _ hx))]
    rfl

/-- C6 (amended): for every imported JSON array whose kept elements
carry string names, the import accepts exactly the elements that are
truthy, of object type, and have truthy `name` and `role`, silently
skipping the rest, and rebuilds each accepted persona over the defaults
with a regenerated timestamp-plus-dashed-name id, discarding any
pre-existing `id` field and defaulting every missing nested field —
except that a non-empty array in which every element is skipped is
rejected with the no-valid-personas error (nothing is imported).
(Amendments forced by the counterexample: an element whose truthy `name`
is not a string aborts the whole import with an error; and the
regenerated id is not guaranteed to differ from ids present in the
input — it coincides exactly when an input id equals the
timestamp-dash-name string.) -/
theorem importPersonas_accepts_and_rebuilds (now : Nat) (elems : List Json)
    (hnames : ∀ p ∈ elems.filter importKeeps,
      ∃ s, jsGetField p ("name") = some (Json.str s)) :
    importPersonas now (Json.arr elems) =
      if (elems.filter importKeeps).length = 0 ∧ 0 < elems.length then
        Except.error
          ("No valid personas found in the file. Ensure each persona has a name and role.")
      else
        Except.ok ((elems.filter importKeeps).map (claimImportedPersona now)) := by
  have hmap := mapImportedPersonas_eq_claim now (elems.filter importKeeps) hnames
  simp only [importPersonas, hmap]
  rw [List.length_map]

/-- A complete import element (name and role present). -/
def importedOkEx : Json :=
  Json.obj [("name", Json.str ("Ada")), ("role", Json.str ("host"))]

/-- An import element lacking a `role` field. -/
def importedNoRoleEx : Json := Json.obj [("name", Json.str ("Bob"))]

/-- Witness for C6, the spec's import example: two objects, one lacking
`role`, yield exactly one imported persona, with the regenerated id and
defaulted nested fields; and a non-empty import in which every element
is skipped is rejected with the no-valid-personas error. -/
theorem importPersonas_accepts_and_rebuilds_witness :
    ([importedOkEx, importedNoRoleEx].filter importKeeps = [importedOkEx]) ∧
    importPersonas 7 (Json.arr [importedOkEx, importedNoRoleEx]) =
      Except.ok [claimImportedPersona 7 importedOkEx] ∧
    (claimImportedPersona 7 importedOkEx).id = "7-Ada" ∧
    (claimImportedPersona 7 importedOkEx).sourceDocuments = Json.arr [] ∧
    (claimImportedPersona 7 importedOkEx).avatarUrl = none ∧
    (claimImportedPersona 7 importedOkEx).speakingPatterns.sentenceLength =
      Json.str ("Medium") ∧
    importPersonas 7 (Json.arr [importedNoRoleEx]) =
      Except.error
        ("No valid personas found in the file. Ensure each persona has a name and role.") := by
  have hn : ∀ p ∈ [importedOkEx, importedNoRoleEx].filter importKeeps,
      ∃ s, jsGetField p ("name") = some (Json.str s) := by
    intro p hp
    have hfilter : [importedOkEx, importedNoRoleEx].filter importKeeps = [importedOkEx] := rfl
    rw [hfilter, List.mem_singleton] at hp
    subst hp
    exact ⟨"Ada", rfl⟩
  have hok := importPersonas_accepts_and_rebuilds 7 [importedOkEx, importedNoRoleEx] hn
  rw [if_neg (by decide)] at hok
  have hempty : ∀ p ∈ [importedNoRoleEx].filter importKeeps,
      ∃ s, jsGetField p ("name") = some (Json.str s) := by
    intro p hp
    have hfilter : [importedNoRoleEx].filter importKeeps = [] := rfl
    rw [hfilter] at hp
    simp at hp
  have herr := importPersonas_accepts_and_rebuilds 7 [importedNoRoleEx] hempty
  rw [if_pos (by decide)] at herr
  exact ⟨rfl, hok, rfl, rfl, rfl, rfl, herr⟩

/-- An import element whose truthy `name` is the number `1`. -/
def importedBadNameEx : Json :=
  Json.obj [("name", Json.num ("1")), ("role", Json.str ("r"))]

/-- An import element whose pre-existing id equals the id the importer
regenerates for it at timestamp 5. -/
def importedIdClashEx : Json :=
  Json.obj [("id", Json.str ("5-A")), ("name", Json.str ("A")), ("role", Json.str ("r"))]

/-- C6 (counterexample to the claim as stated), two parts.  First: an
element with truthy `name` and `role` whose name is a number is not
"silently skipped" — `p.name.replace` throws and the whole import aborts, importing
nothing (not even the valid sibling).  Second: the regenerated
id is not always different from every id present in the input — with
timestamp 5 and name A the regenerated id equals the pre-existing id
`5-A` carried by the input. -/
theorem importPersonas_counterexample :
    importPersonas 5 (Json.arr [importedOkEx, importedBadNameEx]) =
      Except.error ("TypeError: p.name.replace is not a function") ∧
    importKeeps importedBadNameEx = true ∧
    importPersonas 5 (Json.arr [importedIdClashEx]) =
      Except.ok [claimImportedPersona 5 importedIdClashEx] ∧
    (claimImportedPersona 5 importedIdClashEx).id = "5-A" ∧
    jsGetField importedIdClashEx ("id") = some (Json.str ("5-A")) := by
  exact ⟨rfl, rfl, rfl, rfl, rfl⟩

/-! ### C4: fenced input round-trips

The claim quantifies over a JSON array text `A` wrapped, after arbitrary
prose, in a triple-backtick fence (with or without the json tag) and
followed by arbitrary prose.  "Prose" and "array text" are formalised as
backtick-free character lists, and the array text starts with an opening
and ends with a closing square bracket (its trimmed shape). -/

/-- The triple backtick is not a prefix of a list starting with any other
character. -/
theorem ticks_isPrefixOf_cons_false (c : Char) (hc : c ≠ tickChar)
    (l : List Char) : ticks.isPrefixOf (c :: l) = false := by
  rw [← Bool.not_eq_true, List.isPrefixOf_iff_prefix]
  rintro ⟨t, ht⟩
  simp only [ticks, List.cons_append, List.cons.injEq] at ht
  exact hc ht.1.symm

/-- `chompPre` fails when the heads differ. -/
theorem chompPre_cons_ne (p c : Char) (pre l : List Char) (hc : c ≠ p) :
    chompPre (p :: pre) (c :: l) = none := by
  have h : ¬ ((p :: pre).isPrefixOf (c :: l) = true) := by
    rw [ List.isPrefixOf_iff_prefix]
    rintro ⟨t, ht⟩
    simp only [List.cons_append, List.cons.injEq] at ht
    exact hc ht.1.symm
  simp [chompPre, h]

/-- `chompPre` strips an actual prefix. -/
theorem chompPre_append (pre l : List Char) : chompPre pre (pre ++ l) = some l := by
  have h : pre.isPrefixOf (pre ++ l) = true :=
    List.isPrefixOf_iff_prefix.mpr ( List.prefix_append pre l)
  simp [chompPre, h, List.drop_left]

/-- `chompPre` of the triple backtick fails at any other head
character. -/
theorem chompPre_ticks_cons_none (c : Char) (hc : c ≠ tickChar) :
    ∀ l, chompPre ticks (c :: l) = none := by
  intro l
  have h : ¬ (ticks.isPrefixOf (c :: l) = true) := by
    rw [ticks_isPrefixOf_cons_false c hc]
    simp
  simp [chompPre, h]

/-- `findFence` skips any backtick-free leading segment. -/
theorem findFence_append_of_noTick (P rest : List Char)
    (hP : ∀ c ∈ P, c ≠ tickChar) :
    findFence (P ++ rest) = findFence rest := by
  induction P with
  | nil => simp
  | cons c P' ih =>
    have hc : c ≠ tickChar := hP c (List.mem_cons_self _ _)
    rw [List.cons_append]
    simp only [findFence, chompPre_ticks_cons_none c hc, Option.none_bind,
      Option.none_orElse]
    exact ih (fun x hx => hP x (List.mem_cons_of_mem _ hx))

/-- `findFence` finds nothing in a backtick-free text. -/
theorem findFence_eq_none_of_noTick (l : List Char)
    (h : ∀ c ∈ l, c ≠ tickChar) : findFence l = none := by
  have := findFence_append_of_noTick l [] h
  simpa using this

/-- The closing-fence pattern cannot match while a backtick-free segment
ending in a non-whitespace character is still ahead. -/
theorem closingFenceAt_false_of_pending (σ : List Char) (rest : List Char)
    (hnt : ∀ c ∈ σ, c ≠ tickChar) (e : Char)
    (hlast : σ.getLast? = some e) (hews : isJsWs e = false) :
    closingFenceAt (σ ++ rest) = false := by
  induction σ with
  | nil => simp at hlast
  | cons a σ' ih =>
    cases σ' with
    | nil =>
      have ha : a = e := by simpa using hlast
      have hwa : isJsWs a = false := by rw [ha]; exact hews
      have hpre := ticks_isPrefixOf_cons_false a (hnt a (List.mem_cons_self _ _))
      simp [closingFenceAt, hwa, hpre]
    | cons b σ'' =>
      rw [List.getLast?_cons_cons] at hlast
      by_cases hws : isJsWs a = true
      · have hstep : List.dropWhile isJsWs ((a :: b :: σ'') ++ rest) =
            List.dropWhile isJsWs ((b :: σ'') ++ rest) := by
          rw [List.cons_append, List.dropWhile_cons, if_pos hws]
        have := ih (fun x hx => hnt x (List.mem_cons_of_mem _ hx)) hlast
        simp only [closingFenceAt] at this ⊢
        rw [hstep]
        exact this
      · have hwa : isJsWs a = false := by
          cases h : isJsWs a
          · rfl
          · exact absurd h hws
        have hpre := ticks_isPrefixOf_cons_false a (hnt a (List.mem_cons_self _ _))
        have hstep : List.dropWhile isJsWs ((a :: b :: σ'') ++ rest) =
            a :: ((b :: σ'') ++ rest) := by
          rw [List.cons_append, List.dropWhile_cons, if_neg]
          simp [hwa]
        simp only [closingFenceAt]
        rw [hstep]
        exact hpre _

/-- The lazy capture group stops exactly at the first closing fence:
prepending a backtick-free body ending in a non-whitespace character to a
position where the closing fence matches captures exactly that body. -/
theorem lazyBody_append (body rest : List Char)
    (hnt : ∀ c ∈ body, c ≠ tickChar)
    (hshape : body = [] ∨ ∃ e, body.getLast? = some e ∧ isJsWs e = false)
    (hclose : closingFenceAt rest = true) (hne : rest ≠ []) :
    lazyBody (body ++ rest) = some body := by
  induction body with
  | nil =>
    cases rest with
    | nil => exact absurd rfl hne
    | cons c r => simp [lazyBody, hclose]
  | cons a body' ih =>
    have hshape' : ∃ e, (a :: body').getLast? = some e ∧ isJsWs e = false := by
      rcases hshape with h | h
      · exact absurd h (by simp)
      · exact h
    obtain ⟨e, hlast, hews⟩ := hshape'
    have hfalse : closingFenceAt (a :: (body' ++ rest)) = false := by
      have := closingFenceAt_false_of_pending (a :: body') rest hnt e hlast hews
      rwa [List.cons_append] at this
    have hih : lazyBody (body' ++ rest) = some body' := by
      refine ih (fun x hx => hnt x (List.mem_cons_of_mem _ hx)) ?_
      cases body' with
      | nil => exact Or.inl rfl
      | cons b body'' =>
        rw [List.getLast?_cons_cons] at hlast
        exact Or.inr ⟨e, hlast, hews⟩
    rw [List.cons_append]
    show (if closingFenceAt (a :: (body' ++ rest)) = true then some []
      else (lazyBody (body' ++ rest)).map (fun b => a :: b)) = some (a :: body')
    rw [hfalse, hih]
    simp

/-- The whole fence-tail pattern on the wrapped shape: an optional json
tag, the newline, the bracketed array text, the closing newline and the
closing fence. -/
theorem fenceTail_wrapped (tag A S' : List Char)
    (htag : tag = ['j', 's', 'o', 'n'] ∨ tag = [])
    (hhead : A.head? = some '[') (hlastA : A.getLast? = some ']')
    (hA : ∀ c ∈ A, c ≠ tickChar) :
    fenceTail (tag ++ '\n' :: (A ++ '\n' :: (ticks ++ S'))) = some A := by
  obtain ⟨A', hA'⟩ := List.head?_eq_some_iff.mp hhead
  have hchomp : (chompPre ['j', 's', 'o', 'n']
      (tag ++ '\n' :: (A ++ '\n' :: (ticks ++ S')))).getD
        (tag ++ '\n' :: (A ++ '\n' :: (ticks ++ S'))) =
      '\n' :: (A ++ '\n' :: (ticks ++ S')) := by
    rcases htag with rfl | rfl
    · rw [chompPre_append, Option.getD_some]
    · rw [List.nil_append, chompPre_cons_ne 'j' '\n' _ _ (by decide),
        Option.getD_none]
  have hdrop : List.dropWhile isJsWs ('\n' :: (A ++ '\n' :: (ticks ++ S'))) =
      A ++ '\n' :: (ticks ++ S') := by
    rw [List.dropWhile_cons, if_pos (by decide : isJsWs '\n' = true), hA',
      List.cons_append, List.dropWhile_cons,
      if_neg (by decide : ¬ (isJsWs '[' = true)), ← List.cons_append, ← hA']
  have hclose : closingFenceAt ('\n' :: (ticks ++ S')) = true := by
    simp only [closingFenceAt, List.dropWhile_cons,
      if_pos (by decide : isJsWs '\n' = true)]
    have : List.dropWhile isJsWs (ticks ++ S') = ticks ++ S' := by
      rw [ticks, List.cons_append, List.dropWhile_cons, if_neg (by decide)]
    rw [this]
    exact List.isPrefixOf_iff_prefix.mpr ( List.prefix_append _ _)
  have hlazy : lazyBody (A ++ '\n' :: (ticks ++ S')) = some A := by
    refine lazyBody_append A _ hA ?_ hclose (by simp)
    exact Or.inr ⟨']', hlastA, by decide⟩
  simp only [fenceTail]
  rw [hchomp, hdrop, hlazy]

/-- `findFence` at the opening fence itself succeeds with the captured
body. -/
theorem findFence_ticks (rest0 body : List Char)
    (h : fenceTail rest0 = some body) :
    findFence (ticks ++ rest0) = some body := by
  show findFence (tickChar :: (tickChar :: tickChar :: rest0)) = some body
  have hc : chompPre ticks (tickChar :: tickChar :: tickChar :: rest0) = some rest0 :=
    chompPre_append ticks rest0
  simp only [findFence, hc, Option.some_bind, h, Option.some_orElse]

/-- Dropping leading whitespace distributes over an append whose right
part starts with a non-whitespace character. -/
theorem dropWhile_append_head_false (p : Char → Bool) (P rest : List Char)
    (h : ∃ c t, rest = c :: t ∧ p c = false) :
    List.dropWhile p (P ++ rest) = List.dropWhile p P ++ rest := by
  obtain ⟨c, t, rfl, hc⟩ := h
  rw [List.dropWhile_append]
  split
  · next hEmpty =>
    rw [List.dropWhile_cons, if_neg (by simp [hc])]
    have : List.dropWhile p P = [] := by
      rwa [List.isEmpty_iff] at hEmpty
    rw [this, List.nil_append]
  · rfl

/-- Trimming leaves a list with non-whitespace first and last characters
unchanged. -/
theorem jsTrim_eq_self (l : List Char)
    (hh : ∃ c, l.head? = some c ∧ isJsWs c = false)
    (hl : ∃ e, l.getLast? = some e ∧ isJsWs e = false) :
    jsTrim l = l := by
  obtain ⟨c, hc, hcw⟩ := hh
  obtain ⟨e, he, hew⟩ := hl
  obtain ⟨t, rfl⟩ := List.head?_eq_some_iff.mp hc
  have hrev : (c :: t).reverse.head? = some e := by
    rw [List.head?_reverse]
    exact he
  obtain ⟨t', ht'⟩ := List.head?_eq_some_iff.mp hrev
  simp only [jsTrim]
  rw [List.dropWhile_cons, if_neg (by simp [hcw]), ht', List.dropWhile_cons,
    if_neg (by simp [hew]), ← ht', List.reverse_reverse]

/-- Trimming the wrapped text strips whitespace only inside the
surrounding prose: the fenced middle part (which starts and ends with a
backtick) is untouched. -/
theorem jsTrim_wrap (P M S : List Char)
    (hMh : M.head? = some tickChar) (hMl : M.getLast? = some tickChar) :
    jsTrim (P ++ M ++ S) =
      P.dropWhile isJsWs ++ M ++ (S.reverse.dropWhile isJsWs).reverse := by
  obtain ⟨M', hM'⟩ := List.head?_eq_some_iff.mp hMh
  have hMrev : M.reverse.head? = some tickChar := by
    rw [List.head?_reverse]
    exact hMl
  obtain ⟨R', hR'⟩ := List.head?_eq_some_iff.mp hMrev
  have htick : isJsWs tickChar = false := by decide
  have h1 : List.dropWhile isJsWs (P ++ M ++ S) =
      P.dropWhile isJsWs ++ (M ++ S) := by
    rw [List.append_assoc]
    refine dropWhile_append_head_false isJsWs P (M ++ S) ?_
    exact ⟨tickChar, M' ++ S, by rw [hM', List.cons_append], htick⟩
  have h2 : List.dropWhile isJsWs
      ((P.dropWhile isJsWs ++ (M ++ S)).reverse) =
      S.reverse.dropWhile isJsWs ++ (M.reverse ++ (P.dropWhile isJsWs).reverse) := by
    rw [List.reverse_append, List.reverse_append]
    rw [List.append_assoc]
    refine dropWhile_append_head_false isJsWs S.reverse
      (M.reverse ++ (P.dropWhile isJsWs).reverse) ?_
    exact ⟨tickChar, R' ++ (P.dropWhile isJsWs).reverse,
      by rw [hR', List.cons_append], htick⟩
  simp only [jsTrim, h1, h2]
  simp [List.reverse_append]

/-- The bracket fallback leaves a text that already starts with an
opening and ends with a closing square bracket unchanged. -/
theorem bracketSlice_eq_self (A : List Char)
    (hhead : A.head? = some '[') (hlast : A.getLast? = some ']') :
    bracketSlice A = A := by
  obtain ⟨A', hA'⟩ := List.head?_eq_some_iff.mp hhead
  have hrev : A.reverse.head? = some ']' := by
    rw [List.head?_reverse]
    exact hlast
  obtain ⟨R', hR'⟩ := List.head?_eq_some_iff.mp hrev
  have hfirst : A.findIdx? (fun c => c = '[') = some 0 := by
    rw [hA', List.findIdx?_cons]
    simp
  have hlastIdx : A.reverse.findIdx? (fun c => c = ']') = some 0 := by
    rw [hR', List.findIdx?_cons]
    simp
  have hlen : 2 ≤ A.length := by
    rcases A' with _ | ⟨b, A''⟩
    · rw [hA'] at hlast
      simp at hlast
    · rw [hA']
      simp only [List.length_cons]
      omega
  simp only [bracketSlice, hfirst, hlastIdx]
  rw [if_pos (by omega)]
  have : A.length - 1 - 0 + 1 = A.length := by omega
  rw [this, List.take_length, List.drop_zero]

/-- The extraction applied to the bare array text is the identity: there
is no fence in a backtick-free text, and the bracket fallback keeps the
already-bracketed trimmed text. -/
theorem extractJsonStr_bare (A : List Char)
    (hA : ∀ c ∈ A, c ≠ tickChar)
    (hhead : A.head? = some '[') (hlast : A.getLast? = some ']') :
    extractJsonStr A = A := by
  have htrim : jsTrim A = A := by
    refine jsTrim_eq_self A ⟨'[', hhead, by decide⟩ ⟨']', hlast, by decide⟩
  simp only [extractJsonStr, htrim, findFence_eq_none_of_noTick A hA]
  exact bracketSlice_eq_self A hhead hlast

/-- The extraction applied to the wrapped text recovers exactly the array
text between the fences (no condition on the trailing prose is needed:
the leftmost fence wins). -/
theorem extractJsonStr_wrapped (P S A tag : List Char)
    (hP : ∀ c ∈ P, c ≠ tickChar) (hA : ∀ c ∈ A, c ≠ tickChar)
    (htag : tag = ['j', 's', 'o', 'n'] ∨ tag = [])
    (hhead : A.head? = some '[') (hlast : A.getLast? = some ']') :
    extractJsonStr (P ++ (ticks ++ tag ++ '\n' :: (A ++ '\n' :: ticks)) ++ S) =
      A := by
  set M : List Char := ticks ++ tag ++ '\n' :: (A ++ '\n' :: ticks) with hM
  have hMh : M.head? = some tickChar := by
    rw [hM, ticks]
    rfl
  have hMl : M.getLast? = some tickChar := by
    rw [hM]
    have hsplit : '\n' :: (A ++ '\n' :: ticks) = ('\n' :: A) ++ ('\n' :: ticks) := by
      simp
    rw [hsplit, List.getLast?_append, List.getLast?_append]
    rfl
  have htrimmed := jsTrim_wrap P M S hMh hMl
  set P2 : List Char := P.dropWhile isJsWs with hP2
  set S2 : List Char := (S.reverse.dropWhile isJsWs).reverse with hS2
  have hP2nt : ∀ c ∈ P2, c ≠ tickChar := by
    intro c hc
    exact hP c ((List.dropWhile_suffix isJsWs).sublist.subset hc)
  have hAne : A ≠ [] := by
    intro hnil
    rw [hnil] at hhead
    simp at hhead
  have hfence : findFence (P2 ++ M ++ S2) = some A := by
    rw [List.append_assoc]
    rw [findFence_append_of_noTick P2 (M ++ S2) hP2nt]
    have hflat : M ++ S2 = ticks ++ (tag ++ '\n' :: (A ++ '\n' :: (ticks ++ S2))) := by
      rw [hM]
      simp [List.append_assoc]
    rw [hflat]
    exact findFence_ticks _ A (fenceTail_wrapped tag A S2 htag hhead hlast hA)
  have htrimA : jsTrim A = A :=
    jsTrim_eq_self A ⟨'[', hhead, by decide⟩ ⟨']', hlast, by decide⟩
  simp only [extractJsonStr, htrimmed, hfence, if_pos hAne, htrimA]

/-- C4: prepending prose and wrapping a (trimmed, backtick-free) JSON
array text in a triple-backtick code fence — with or without the json
tag, anywhere in a larger string, with arbitrary trailing text — does not
change what `parseAndValidateResponse` produces: both the wrapped and the
bare text extract to the very same array text, so the resulting
`ScriptLine` lists coincide for every persona list. -/
theorem parseAndValidateResponse_fence_roundtrip (now : Nat)
    (personas : List Persona) (P S A tag : List Char)
    (hP : ∀ c ∈ P, c ≠ tickChar) (hA : ∀ c ∈ A, c ≠ tickChar)
    (htag : tag = ['j', 's', 'o', 'n'] ∨ tag = [])
    (hhead : A.head? = some '[') (hlast : A.getLast? = some ']') :
    extractJsonStr (P ++ (ticks ++ tag ++ '\n' :: (A ++ '\n' :: ticks)) ++ S) = A ∧
    extractJsonStr A = A ∧
    parseAndValidateResponse now
        (P ++ (ticks ++ tag ++ '\n' :: (A ++ '\n' :: ticks)) ++ S) personas =
      parseAndValidateResponse now A personas := by
  have h1 := extractJsonStr_wrapped P S A tag hP hA htag hhead hlast
  have h2 := extractJsonStr_bare A hA hhead hlast
  refine ⟨h1, h2, ?_⟩
  simp only [parseAndValidateResponse, h1, h2]

/-- The leading prose of the C4 witness. -/
def fenceProseEx : List Char := ("Here is the script you asked for: ").toList

/-- The bare JSON array text of the C4 witness. -/
def fenceArrayEx : List Char :=
  ("[\x7b\"speakerId\": \"p1\", \"line\": \"hi\"\x7d]").toList

/-- The trailing citation text of the C4 witness (it even contains square
brackets, which the leftmost fence takes precedence over). -/
def fenceTrailEx : List Char := (" Sources: [1] example.com").toList

/-- Witness for C4: a grounded-style response with prose, a json-tagged
fence around the array, and trailing citations parses to the same single
accepted line as the bare array text. -/
theorem parseAndValidateResponse_fence_roundtrip_witness :
    (∀ c ∈ fenceProseEx, c ≠ tickChar) ∧
    (∀ c ∈ fenceArrayEx, c ≠ tickChar) ∧
    fenceArrayEx.head? = some '[' ∧
    fenceArrayEx.getLast? = some ']' ∧
    (extractJsonStr (fenceProseEx ++
        (ticks ++ ['j', 's', 'o', 'n'] ++ '\n' :: (fenceArrayEx ++ '\n' :: ticks)) ++
        fenceTrailEx) = fenceArrayEx ∧
      extractJsonStr fenceArrayEx = fenceArrayEx ∧
      parseAndValidateResponse 5
          (fenceProseEx ++
            (ticks ++ ['j', 's', 'o', 'n'] ++ '\n' :: (fenceArrayEx ++ '\n' :: ticks)) ++
            fenceTrailEx) [⟨"p1", "Alex"⟩] =
        parseAndValidateResponse 5 fenceArrayEx [⟨"p1", "Alex"⟩]) ∧
    parseAndValidateResponse 5 fenceArrayEx [⟨"p1", "Alex"⟩] =
      Except.ok [{ id := "5-0", speakerId := "p1", line := Json.str ("hi") }] := by
  refine ⟨by decide, by decide, rfl, rfl, ?_, rfl⟩
  exact parseAndValidateResponse_fence_roundtrip 5 [⟨"p1", "Alex"⟩]
    fenceProseEx fenceTrailEx fenceArrayEx ['j', 's', 'o', 'n']
    (by decide) (by decide) (Or.inl rfl) rfl rfl
